import Mathlib

/-!
Shallow embedding of the WebRTC signaling relay (`src/main.py`): the
`ConnectionManager` registry (an insertion-ordered dict from client id to
websocket), its operations (`connect`, `disconnect`, `send_user_list`,
`broadcast_user_list`, `send_personal_message`), the per-frame dispatch of
`websocket_endpoint`'s receive loop, and the `generate_id` endpoint.

Modelling conventions:
- A websocket channel is identified by a `Nat`; an environment `ok : Nat → Bool`
  says whether `send_json` to that channel succeeds (`false` = the send raises).
- Effects are recorded as a trace of `Event`s (`accept`, send attempts, `close`).
  A send attempt is recorded whether or not it succeeds, matching the fact that
  `send_json` is invoked and may raise.
- Inbound frames are modelled post-`json.loads`: `Option Json`, `none` meaning
  the frame was not valid JSON (`json.JSONDecodeError`).
- Python dynamic-typing errors (`TypeError` on `"target" in 42`,
  `AttributeError` on `"abc".get`, `TypeError` on hashing a list/dict key) are
  modelled explicitly, since they escape the `except json.JSONDecodeError`
  handler and hit the `except Exception: break` of the receive loop.
-/

namespace WebRTC

mutual
/-- JSON values as produced by `json.loads`. Objects and arrays use mutually
inductive list types so that decidable equality can be derived. -/
inductive Json where
  | null
  | bool (b : Bool)
  | num (n : Int)
  | str (s : String)
  | arr (elems : JsonArr)
  | obj (fields : JsonObj)
deriving DecidableEq

inductive JsonArr where
  | nil
  | cons (hd : Json) (tl : JsonArr)
deriving DecidableEq

inductive JsonObj where
  | nil
  | cons (key : String) (val : Json) (tl : JsonObj)
deriving DecidableEq
end

/-- First value bound to `key` in a JSON object (`json.loads` already collapsed
duplicate keys, so the object binds each key once). -/
def JsonObj.lookup (key : String) : JsonObj → Option Json
  | .nil => none
  | .cons k v tl => if k = key then some v else JsonObj.lookup key tl

/-- Python `key in d` for a dict `d`. -/
def JsonObj.containsKey (key : String) (o : JsonObj) : Bool :=
  (o.lookup key).isSome

/-- Python `s in lst` for a list: membership by `==` against the string `s`. -/
def JsonArr.containsStr (s : String) : JsonArr → Bool
  | .nil => false
  | .cons hd tl => hd == Json.str s || JsonArr.containsStr s tl

/-- `d.get(key)` for a dict: the bound value, or `None` when absent. -/
def JsonObj.getD (key : String) (o : JsonObj) : Json :=
  (o.lookup key).getD .null

/-- Whether a JSON value is an object (a Python dict). -/
def Json.isObj : Json → Bool
  | .obj _ => true
  | _ => false

/-- Contiguous-substring test on character lists, for Python `sub in s` on
strings. -/
def isInfixB (needle : List Char) : List Char → Bool
  | [] => needle.isEmpty
  | c :: rest => needle.isPrefixOf (c :: rest) || isInfixB needle rest

/-- The Python runtime errors the dispatch code can raise. -/
inductive PyErr where
  | typeError
  | attributeError
  | keyError
deriving DecidableEq

/-- Python `"target" in message` on an arbitrary JSON value: key membership for
dicts, substring for strings, element membership for lists, `TypeError`
otherwise (`int`, `float`, `bool`, `None` are not containers). -/
def pyContains (key : String) : Json → Except PyErr Bool
  | .obj fields => .ok (fields.containsKey key)
  | .str s => .ok (isInfixB key.toList s.toList)
  | .arr xs => .ok (xs.containsStr key)
  | _ => .error .typeError

/-- Python `message[key]` with a string key: dict lookup (`KeyError` when
absent); `TypeError` on strings and lists (string indices / list indices must
be integers) and on every non-container. -/
def pySubscript (key : String) : Json → Except PyErr Json
  | .obj fields =>
    match fields.lookup key with
    | some v => .ok v
    | none => .error .keyError
  | _ => .error .typeError

/-- Python `message.get(key)`: only dicts have `.get`; every other JSON value
raises `AttributeError`. -/
def pyGetD (key : String) : Json → Except PyErr Json
  | .obj fields => .ok (fields.getD key)
  | _ => .error .attributeError

/-- Outbound messages sent over a websocket via `send_json`. -/
inductive OutMsg where
  | users (ids : List String)
  | fwd (payload : Json)
deriving DecidableEq

/-- Observable channel-level effects. `close` is never emitted by any modelled
operation: the server never closes a websocket itself. -/
inductive Event where
  | accept (sock : Nat)
  | send (sock : Nat) (msg : OutMsg)
  | close (sock : Nat)
deriving DecidableEq

/-- `ConnectionManager.active_connections`: a `Dict[str, WebSocket]`, embedded
as an insertion-ordered association list with (invariantly) unique keys. -/
structure ManagerState where
  active : List (String × Nat)
deriving DecidableEq

/-- Dict lookup `d.get(k)`: first binding of the key. -/
def lookupA : List (String × Nat) → String → Option Nat
  | [], _ => none
  | (k, v) :: rest, c => if k = c then some v else lookupA rest c

/-- Python `k in d`. -/
def containsA (m : List (String × Nat)) (c : String) : Bool :=
  (lookupA m c).isSome

/-- Dict assignment `d[k] = v`: replace in place when present (insertion order
is kept), append otherwise. -/
def insertA : List (String × Nat) → String → Nat → List (String × Nat)
  | [], c, v => [(c, v)]
  | (k, w) :: rest, c, v =>
    if k = c then (k, v) :: rest else (k, w) :: insertA rest c v

/-- `del d[k]` (always guarded by `if k in d` in the source): remove the
binding of the key. -/
def eraseA : List (String × Nat) → String → List (String × Nat)
  | [], _ => []
  | (k, w) :: rest, c => if k = c then rest else (k, w) :: eraseA rest c

/-- `list(d.keys())`. -/
def keysOf (m : List (String × Nat)) : List String := m.map Prod.fst

/-- `ConnectionManager.send_user_list(websocket)`: snapshot the key list under
the lock, send `{"type": "users", "users": users}` to that one channel; a send
failure is only logged (`except Exception: logger.error`), the state is not
touched. -/
def send_user_list (ok : Nat → Bool) (st : ManagerState) (sock : Nat) :
    ManagerState × List Event :=
  let users := keysOf st.active
  let ev := Event.send sock (.users users)
  if ok sock then (st, [ev]) else (st, [ev])

/-- The `for client_id, connection in connections:` loop of
`broadcast_user_list`: attempt the send to every snapshot entry, collecting the
ids whose send raised into `disconnected_clients` in iteration order. -/
def broadcastPass (ok : Nat → Bool) (msg : OutMsg) :
    List (String × Nat) → List Event × List String
  | [] => ([], [])
  | (cid, sock) :: rest =>
    let tail := broadcastPass ok msg rest
    (Event.send sock msg :: tail.1, if ok sock then tail.2 else cid :: tail.2)

/-- The cleanup loop of `broadcast_user_list`:
`for client_id in disconnected_clients: if client_id in d: del d[client_id]`. -/
def removeBatch : List (String × Nat) → List String → List (String × Nat)
  | m, [] => m
  | m, cid :: rest =>
    removeBatch (if containsA m cid then eraseA m cid else m) rest

/-- `ConnectionManager.broadcast_user_list()`: one atomic snapshot of keys and
items under the lock, a send pass over the whole snapshot, then a batch removal
of the failed clients. No further broadcast is issued by the cleanup. -/
def broadcast_user_list (ok : Nat → Bool) (st : ManagerState) :
    ManagerState × List Event :=
  let users := keysOf st.active
  let connections := st.active
  let passed := broadcastPass ok (.users users) connections
  (⟨removeBatch st.active passed.2⟩, passed.1)

/-- `ConnectionManager.disconnect(client_id)`: delete the binding when present,
then call `broadcast_user_list()` unconditionally (the call sits outside the
`if client_id in self.active_connections` guard). -/
def disconnect (ok : Nat → Bool) (st : ManagerState) (cid : String) :
    ManagerState × List Event :=
  let st1 : ManagerState :=
    if containsA st.active cid then ⟨eraseA st.active cid⟩ else st
  broadcast_user_list ok st1

/-- `ConnectionManager.send_personal_message(message, client_id)`. `client_id`
is whatever `message["target"]` held, so it is an arbitrary JSON value:
`d.get(client_id)` raises `TypeError` on an unhashable key (list, dict), misses
on any hashable non-string, and looks up normally on a string. When the send to
a found channel raises, the handler calls `self.disconnect(client_id)`. -/
def send_personal_message (ok : Nat → Bool) (st : ManagerState)
    (message : Json) (clientId : Json) :
    Except PyErr (ManagerState × List Event) :=
  match clientId with
  | .arr _ => .error .typeError
  | .obj _ => .error .typeError
  | .str cid =>
    match lookupA st.active cid with
    | some sock =>
      if ok sock then .ok (st, [.send sock (.fwd message)])
      else
        let r := disconnect ok st cid
        .ok (r.1, .send sock (.fwd message) :: r.2)
    | none => .ok (st, [])
  | _ => .ok (st, [])

/-- `ConnectionManager.connect(websocket, client_id)`: accept the channel,
register it under the lock, send the user list to this channel only, then
broadcast the user list to everyone. -/
def connect (ok : Nat → Bool) (st : ManagerState) (cid : String) (sock : Nat) :
    ManagerState × List Event :=
  let st1 : ManagerState := ⟨insertA st.active cid sock⟩
  let p := send_user_list ok st1 sock
  let b := broadcast_user_list ok p.1
  (b.1, Event.accept sock :: (p.2 ++ b.2))

/-- Outcome of one iteration of the `while True` receive loop. -/
inductive LoopOutcome where
  | cont
  | breakLoop
deriving DecidableEq

/-- One inbound text frame through the dispatch of `websocket_endpoint`, after
`json.loads` (`none` = `JSONDecodeError`, which is caught and logged). Any
other exception escapes the inner `try` and hits `except Exception: break`. -/
def handleFrame (ok : Nat → Bool) (st : ManagerState) (senderSock : Nat)
    (frame : Option Json) : ManagerState × List Event × LoopOutcome :=
  match frame with
  | none => (st, [], .cont)
  | some message =>
    match pyContains "target" message with
    | .error _ => (st, [], .breakLoop)
    | .ok true =>
      match pySubscript "target" message with
      | .error _ => (st, [], .breakLoop)
      | .ok tv =>
        match send_personal_message ok st message tv with
        | .ok r => (r.1, r.2, .cont)
        | .error _ => (st, [], .breakLoop)
    | .ok false =>
      match pyGetD "type" message with
      | .error _ => (st, [], .breakLoop)
      | .ok tv =>
        if tv == Json.str "get_users" then
          let r := send_user_list ok st senderSock
          (r.1, r.2, .cont)
        else (st, [], .cont)

/-- The receive loop over a list of parsed frames: stop at the first frame
whose dispatch breaks, concatenating the event traces. -/
def runLoop (ok : Nat → Bool) (st : ManagerState) (senderSock : Nat) :
    List (Option Json) → ManagerState × List Event
  | [] => (st, [])
  | f :: rest =>
    let r := handleFrame ok st senderSock f
    match r.2.2 with
    | .cont =>
      let r2 := runLoop ok r.1 senderSock rest
      (r2.1, r.2.1 ++ r2.2)
    | .breakLoop => (r.1, r.2.1)

/-- The JSON body `{"id": new_id}` returned by the `/generate_id` endpoint. -/
structure GenIdResponse where
  id : List Char
deriving DecidableEq

/-- `generate_id()`: `new_id = str(uuid.uuid4())[:8]`. The fresh UUID's
canonical string is an input `u`; the manager state is passed through to
record that the endpoint neither reads nor writes it. -/
def generate_id (st : ManagerState) (u : List Char) : GenIdResponse × ManagerState :=
  (⟨u.take 8⟩, st)

/-- Lowercase hexadecimal digit, the alphabet of `str(uuid.uuid4())` apart
from the hyphens. -/
def isHexDigitChar (c : Char) : Bool :=
  (('0' ≤ c) && (c ≤ '9')) || (('a' ≤ c) && (c ≤ 'f'))

/-- Scan of a canonical UUID string starting at position `n`: hyphens at
positions 8, 13, 18, 23, lowercase hex digits elsewhere, length 36. -/
def checkUuid : List Char → Nat → Bool
  | [], n => n == 36
  | c :: rest, n =>
    (if n == 8 || n == 13 || n == 18 || n == 23 then c == '-'
     else isHexDigitChar c) && checkUuid rest (n + 1)

/-- `str(uuid.uuid4())` always satisfies this shape. -/
def isUuidCanonical (u : List Char) : Bool := checkUuid u 0

/-- Boolean membership of a string in a list of strings (used to restate the
cleanup loop of `broadcast_user_list` as a filter). -/
def memS (c : String) : List String → Bool
  | [] => false
  | s :: rest => c == s || memS c rest

/-- Environment in which every send succeeds. -/
def okAll : Nat → Bool := fun _ => true

/-- Environment in which every send raises. -/
def okNone : Nat → Bool := fun _ => false

/-- A registry holding one client `"a"` on channel `0`. -/
def stA : ManagerState := ⟨[("a", 0)]⟩

/-- A registry holding clients `"a"` (channel `0`) and `"b"` (channel `1`). -/
def stAB : ManagerState := ⟨[("a", 0), ("b", 1)]⟩

/-- A sample canonical UUID string, as `str(uuid.uuid4())` would produce. -/
def uuidSample : List Char := "123e4567-e89b-12d3-a456-426614174000".toList

/-! ## Association-list lemmas -/

theorem lookupA_eq_none_iff (m : List (String × Nat)) (c : String) :
    lookupA m c = none ↔ c ∉ keysOf m := by
  induction m with
  | nil => simp [lookupA, keysOf]
  | cons hd tl ih =>
    obtain ⟨k, v⟩ := hd
    by_cases hk : k = c
    · subst hk; simp [lookupA, keysOf]
    · simp [lookupA, hk, keysOf, Ne.symm hk] at ih ⊢
      exact ih

theorem mem_keysOf_of_lookupA {m : List (String × Nat)} {c : String} {v : Nat}
    (h : lookupA m c = some v) : c ∈ keysOf m := by
  by_contra hc
  rw [(lookupA_eq_none_iff m c).mpr hc] at h
  exact Option.noConfusion h

theorem filter_ne_of_not_mem {m : List (String × Nat)} {c : String}
    (h : c ∉ keysOf m) : m.filter (fun p => !(p.1 == c)) = m := by
  induction m with
  | nil => rfl
  | cons hd tl ih =>
    obtain ⟨k, v⟩ := hd
    simp only [keysOf, List.map_cons, List.mem_cons] at h
    push_neg at h
    simp [List.filter_cons, Ne.symm h.1, ih h.2]

theorem eraseA_eq_filter {m : List (String × Nat)} (c : String)
    (h : (keysOf m).Nodup) : eraseA m c = m.filter (fun p => !(p.1 == c)) := by
  induction m with
  | nil => rfl
  | cons hd tl ih =>
    obtain ⟨k, v⟩ := hd
    simp only [keysOf, List.map_cons, List.nodup_cons] at h
    by_cases hk : k = c
    · subst hk
      simp [eraseA, List.filter_cons, filter_ne_of_not_mem h.1]
    · simp [eraseA, hk, List.filter_cons, ih h.2]

theorem keys_nodup_val_eq {m : List (String × Nat)} {c : String} {v w : Nat}
    (h : (keysOf m).Nodup) (h1 : (c, v) ∈ m) (h2 : (c, w) ∈ m) : v = w := by
  induction m with
  | nil => cases h1
  | cons hd tl ih =>
    obtain ⟨k, x⟩ := hd
    simp only [keysOf, List.map_cons, List.nodup_cons] at h
    rcases List.mem_cons.mp h1 with he1 | ht1 <;>
      rcases List.mem_cons.mp h2 with he2 | ht2
    · injection he1 with hc1 hv1
      injection he2 with hc2 hv2
      exact hv1.trans hv2.symm
    · injection he1 with hc1 hv1
      exact absurd (List.mem_map_of_mem Prod.fst ht2) (hc1.symm ▸ h.1)
    · injection he2 with hc2 hv2
      exact absurd (List.mem_map_of_mem Prod.fst ht1) (hc2.symm ▸ h.1)
    · exact ih h.2 ht1 ht2

theorem nodup_keys_filter {m : List (String × Nat)}
    (h : (keysOf m).Nodup) (f : String × Nat → Bool) :
    (keysOf (m.filter f)).Nodup :=
  h.sublist ((List.filter_sublist m).map Prod.fst)

theorem memS_iff (c : String) (l : List String) : memS c l = true ↔ c ∈ l := by
  induction l with
  | nil => simp [memS]
  | cons s rest ih => simp [memS, ih]

theorem removeBatch_filter :
    ∀ (dis : List String) (m : List (String × Nat)), (keysOf m).Nodup →
      removeBatch m dis = m.filter (fun p => !(memS p.1 dis))
  | [], m, _ => by simp [removeBatch, memS]
  | cid :: rest, m, h => by
    have hstep : (if containsA m cid then eraseA m cid else m)
        = m.filter (fun p => !(p.1 == cid)) := by
      by_cases hc : containsA m cid
      · rw [if_pos hc, eraseA_eq_filter cid h]
      · rw [if_neg hc, filter_ne_of_not_mem]
        apply (lookupA_eq_none_iff m cid).mp
        cases hl : lookupA m cid with
        | none => rfl
        | some v => exact absurd (by simp [containsA, hl]) hc
    rw [removeBatch, hstep,
      removeBatch_filter rest _ (nodup_keys_filter h _), List.filter_filter]
    apply List.filter_congr
    intro p _
    simp [memS, Bool.not_or, Bool.and_comm]

/-! ## Characterizations of the manager operations -/

theorem broadcastPass_events (ok : Nat → Bool) (msg : OutMsg) :
    ∀ l : List (String × Nat),
      (broadcastPass ok msg l).1 = l.map (fun p => Event.send p.2 msg)
  | [] => rfl
  | (cid, sock) :: rest => by
    simp [broadcastPass, broadcastPass_events ok msg rest]

theorem broadcastPass_disconnected (ok : Nat → Bool) (msg : OutMsg) :
    ∀ l : List (String × Nat),
      (broadcastPass ok msg l).2 =
        (l.filter (fun p => !(ok p.2))).map Prod.fst
  | [] => rfl
  | (cid, sock) :: rest => by
    by_cases hok : ok sock <;>
      simp [broadcastPass, hok, List.filter_cons,
        broadcastPass_disconnected ok msg rest]

theorem broadcast_events (ok : Nat → Bool) (st : ManagerState) :
    (broadcast_user_list ok st).2 =
      st.active.map (fun p => Event.send p.2 (OutMsg.users (keysOf st.active))) := by
  simp [broadcast_user_list, broadcastPass_events]

theorem broadcast_state (ok : Nat → Bool) (st : ManagerState)
    (h : (keysOf st.active).Nodup) :
    (broadcast_user_list ok st).1.active = st.active.filter (fun p => ok p.2) := by
  show removeBatch st.active (broadcastPass ok _ st.active).2 = _
  rw [broadcastPass_disconnected, removeBatch_filter _ _ h]
  apply List.filter_congr
  intro p hp
  have hval : memS p.1
      ((st.active.filter (fun q => !(ok q.2))).map Prod.fst) = !(ok p.2) := by
    cases hok : ok p.2 with
    | true =>
      simp only [Bool.not_true]
      cases hm : memS p.1
          ((st.active.filter (fun q => !(ok q.2))).map Prod.fst) with
      | false => rfl
      | true =>
        exfalso
        rw [memS_iff] at hm
        rcases List.mem_map.mp hm with ⟨q, hq, hq1⟩
        rcases List.mem_filter.mp hq with ⟨hqm, hqok⟩
        have hv : q.2 = p.2 := by
          apply keys_nodup_val_eq h (show (q.1, q.2) ∈ st.active from hqm)
          rw [hq1]
          exact hp
        rw [hv, hok] at hqok
        exact Bool.noConfusion hqok
    | false =>
      simp only [Bool.not_false]
      rw [memS_iff]
      exact List.mem_map_of_mem Prod.fst (List.mem_filter.mpr ⟨hp, by simp [hok]⟩)
  simp only [hval, Bool.not_not]

theorem send_user_list_fst (ok : Nat → Bool) (st : ManagerState) (sock : Nat) :
    (send_user_list ok st sock).1 = st := by
  by_cases hok : ok sock <;> simp [send_user_list, hok]

theorem send_user_list_snd (ok : Nat → Bool) (st : ManagerState) (sock : Nat) :
    (send_user_list ok st sock).2 =
      [Event.send sock (OutMsg.users (keysOf st.active))] := by
  by_cases hok : ok sock <;> simp [send_user_list, hok]

theorem lookupA_insertA_self (c : String) (v : Nat) :
    ∀ m : List (String × Nat), lookupA (insertA m c v) c = some v
  | [] => by simp [insertA, lookupA]
  | (k, w) :: rest => by
    by_cases hk : k = c <;>
      simp [insertA, lookupA, hk, lookupA_insertA_self c v rest]

theorem keysOf_insertA_of_mem {c : String} (v : Nat) :
    ∀ m : List (String × Nat), c ∈ keysOf m →
      keysOf (insertA m c v) = keysOf m
  | [], h => absurd h (by simp [keysOf])
  | (k, w) :: rest, h => by
    by_cases hk : k = c
    · simp [insertA, hk, keysOf]
    · simp only [keysOf, List.map_cons, List.mem_cons] at h
      rcases h with h | h
      · exact absurd h.symm hk
      · have hrec := keysOf_insertA_of_mem v rest (by simpa [keysOf] using h)
        simp only [keysOf] at hrec
        simp [insertA, hk, keysOf, hrec]

theorem self_mem_insertA (c : String) (v : Nat) :
    ∀ m : List (String × Nat), (c, v) ∈ insertA m c v
  | [] => by simp [insertA]
  | (k, w) :: rest => by
    by_cases hk : k = c
    · simp [insertA, hk]
    · simp [insertA, hk, self_mem_insertA c v rest]

theorem not_mem_keys_filter_ne (m : List (String × Nat)) (c : String) :
    c ∉ keysOf (m.filter (fun p => !(p.1 == c))) := by
  intro hm
  simp only [keysOf] at hm
  rcases List.mem_map.mp hm with ⟨p, hpf, hp1⟩
  have hpred := (List.mem_filter.mp hpf).2
  simp [hp1] at hpred

theorem mem_keysOf_filter {m : List (String × Nat)} {f : String × Nat → Bool}
    {c : String} (h : c ∈ keysOf (m.filter f)) : c ∈ keysOf m :=
  ((List.filter_sublist m).map Prod.fst).subset h

/-! ## Claim theorems -/

/-- C1, counterexample: with only `"a"` registered, `disconnect` of the absent
identifier `"b"` still emits a user-list broadcast, contrary to the claim that
no broadcast is triggered when no removal occurred. -/
theorem C1_counterexample :
    lookupA stA.active "b" = none ∧ (disconnect okAll stA "b").2 ≠ [] := by
  constructor
  · rfl
  · decide

/-- C1, amended: `disconnect` of an identifier that is not registered leaves
the registry untouched, but it still triggers a user-list broadcast
unconditionally — the whole call behaves exactly like a bare
`broadcast_user_list`. -/
theorem C1_disconnect_absent (ok : Nat → Bool) (st : ManagerState) (cid : String)
    (h : lookupA st.active cid = none) :
    disconnect ok st cid = broadcast_user_list ok st := by
  have hc : containsA st.active cid = false := by simp [containsA, h]
  simp [disconnect, hc]

/-- C1, witness: the amended theorem applied to the one-client registry and an
absent identifier. -/
theorem C1_witness :
    disconnect okAll stA "b" = broadcast_user_list okAll stA :=
  C1_disconnect_absent okAll stA "b" (by decide)

/-- C3, counterexample: when the send inside `send_user_list` fails (channel
`0` of client `"a"`, in an environment where every send raises), the failure is
only logged: the attempt is made, yet `"a"` stays in the registry — refuting
the claim that every send failure removes the failing client. -/
theorem C3_counterexample :
    okNone 0 = false
    ∧ (send_user_list okNone stA 0).2 = [Event.send 0 (OutMsg.users ["a"])]
    ∧ lookupA ((send_user_list okNone stA 0).1).active "a" = some 0 := by
  refine ⟨rfl, by decide, by decide⟩

/-- C3, amended: a send failure during a broadcast removes the failing client
(the surviving registry is exactly the snapshot filtered to channels whose
send succeeds); a send failure during a direct routed send
(`send_personal_message`) removes the target and is absorbed (the call returns
normally, never propagating the exception); but a send failure during the
personal user-list response (`send_user_list`) never changes the registry — the
client is not removed there. -/
theorem C3_send_failure (ok : Nat → Bool) (st : ManagerState)
    (hnd : (keysOf st.active).Nodup) :
    ((broadcast_user_list ok st).1.active = st.active.filter (fun p => ok p.2))
    ∧ (∀ (msg : Json) (cid : String) (sock : Nat),
        lookupA st.active cid = some sock → ok sock = false →
        ∃ r, send_personal_message ok st msg (Json.str cid) = Except.ok r
          ∧ lookupA r.1.active cid = none)
    ∧ (∀ sock, (send_user_list ok st sock).1 = st) := by
  refine ⟨broadcast_state ok st hnd, ?_, send_user_list_fst ok st⟩
  intro msg cid sock hl hok
  refine ⟨((disconnect ok st cid).1,
    Event.send sock (.fwd msg) :: (disconnect ok st cid).2), ?_, ?_⟩
  · simp [send_personal_message, hl, hok]
  · have h1 : containsA st.active cid = true := by simp [containsA, hl]
    have herase : eraseA st.active cid
        = st.active.filter (fun p => !(p.1 == cid)) := eraseA_eq_filter cid hnd
    have hnd' : (keysOf (eraseA st.active cid)).Nodup := by
      rw [herase]; exact nodup_keys_filter hnd _
    simp only [disconnect, h1, if_true]
    rw [lookupA_eq_none_iff]
    intro hmem
    rw [broadcast_state _ _ hnd'] at hmem
    have hmem2 : cid ∈ keysOf (eraseA st.active cid) := mem_keysOf_filter hmem
    rw [herase] at hmem2
    exact not_mem_keys_filter_ne st.active cid hmem2

/-- C3, witness: the broadcast clause of the amended theorem instantiated on
the two-client registry in the all-sends-fail environment. -/
theorem C3_witness :
    (broadcast_user_list okNone stAB).1.active
      = stAB.active.filter (fun p => okNone p.2) :=
  (C3_send_failure okNone stAB (by decide)).1

/-- C4: `broadcast_user_list` attempts the send to every snapshot entry (the
event trace is one send per snapshot pair, each carrying the pre-removal
roster, so no failed channel is removed inline during the pass), and the
follow-up batch removal leaves precisely the entries whose send succeeded; the
cleanup adds no further events, i.e. it does not recursively broadcast. -/
theorem C4_broadcast_batch (ok : Nat → Bool) (st : ManagerState)
    (hnd : (keysOf st.active).Nodup) :
    ((broadcast_user_list ok st).2 =
      st.active.map (fun p => Event.send p.2 (OutMsg.users (keysOf st.active))))
    ∧ (broadcast_user_list ok st).1.active
        = st.active.filter (fun p => ok p.2) :=
  ⟨broadcast_events ok st, broadcast_state ok st hnd⟩

/-- C4, witness: both clauses on the two-client registry where every send
fails — both clients are sent the full roster, then both are removed, with no
further send events. -/
theorem C4_witness :
    ((broadcast_user_list okNone stAB).2 =
      stAB.active.map (fun p => Event.send p.2 (OutMsg.users (keysOf stAB.active))))
    ∧ (broadcast_user_list okNone stAB).1.active
        = stAB.active.filter (fun p => okNone p.2) :=
  C4_broadcast_batch okNone stAB (by decide)

/-- C10: within one `broadcast_user_list` pass the roster in the outgoing
message and the send-attempt targets come from the same snapshot: the events
are exactly one send per snapshot pair, each carrying the snapshot's key list,
and every registered pair is attempted with a roster containing its own
identifier. -/
theorem C10_snapshot_atomic (ok : Nat → Bool) (st : ManagerState) :
    ((broadcast_user_list ok st).2 =
      st.active.map (fun p => Event.send p.2 (OutMsg.users (keysOf st.active))))
    ∧ (∀ cid sock, (cid, sock) ∈ st.active →
        Event.send sock (OutMsg.users (keysOf st.active))
            ∈ (broadcast_user_list ok st).2
          ∧ cid ∈ keysOf st.active) := by
  refine ⟨broadcast_events ok st, ?_⟩
  intro cid sock hmem
  constructor
  · rw [broadcast_events]
    exact List.mem_map_of_mem _ hmem
  · exact List.mem_map_of_mem Prod.fst hmem

/-- C10, witness: client `"a"` on channel `0` receives a send attempt whose
roster contains `"a"`. -/
theorem C10_witness :
    (Event.send 0 (OutMsg.users (keysOf stA.active))
        ∈ (broadcast_user_list okAll stA).2)
    ∧ "a" ∈ keysOf stA.active :=
  (C10_snapshot_atomic okAll stA).2 "a" 0 (by decide)

/-- The event trace of `connect`: transport accept, then the personal
user-list send, then the broadcast pass over the post-registration snapshot. -/
theorem connect_events (ok : Nat → Bool) (st : ManagerState)
    (cid : String) (sock : Nat) :
    (connect ok st cid sock).2
      = Event.accept sock
        :: Event.send sock (OutMsg.users (keysOf (insertA st.active cid sock)))
        :: (insertA st.active cid sock).map
            (fun p => Event.send p.2
              (OutMsg.users (keysOf (insertA st.active cid sock)))) := by
  simp [connect, send_user_list_fst, send_user_list_snd, broadcast_events]

/-- A JSON string frame always breaks the loop: `"target" in s` evaluates (as
a substring test), but then either `s["target"]` or `s.get("type")` raises. -/
theorem handleFrame_str (ok : Nat → Bool) (st : ManagerState) (sock : Nat)
    (s : String) :
    handleFrame ok st sock (some (Json.str s)) = (st, [], LoopOutcome.breakLoop) := by
  simp only [handleFrame, pyContains]
  generalize isInfixB "target".toList s.toList = b
  cases b <;> rfl

/-- A JSON array frame always breaks the loop: `"target" in lst` evaluates,
but then either `lst["target"]` or `lst.get("type")` raises. -/
theorem handleFrame_arr (ok : Nat → Bool) (st : ManagerState) (sock : Nat)
    (xs : JsonArr) :
    handleFrame ok st sock (some (Json.arr xs)) = (st, [], LoopOutcome.breakLoop) := by
  simp only [handleFrame, pyContains]
  generalize xs.containsStr "target" = b
  cases b <;> rfl

/-- C2, counterexample: the frame `42` is valid JSON with neither a `target`
field nor a `get_users` type, yet dispatching it breaks the receive loop
(`"target" in 42` raises `TypeError`, which is not a `JSONDecodeError` and so
reaches `except Exception: break`) instead of continuing. -/
theorem C2_counterexample :
    handleFrame okAll stA 0 (some (Json.num 42)) = (stA, [], LoopOutcome.breakLoop)
    ∧ LoopOutcome.breakLoop ≠ LoopOutcome.cont := by decide

/-- C2, amended: a parsed frame that is a JSON *object* with no `target` key
and whose `type` is not `"get_users"` is dropped silently — no send, registry
unchanged, loop continues; but a parsed frame that is any non-object JSON
value (number, string, array, boolean, null) raises an uncaught error in the
dispatch and terminates the receive loop. -/
theorem C2_unrecognized_dispatch (ok : Nat → Bool) (st : ManagerState)
    (sock : Nat) (j : Json) :
    (∀ fields, j = Json.obj fields →
      fields.containsKey "target" = false →
      fields.getD "type" ≠ Json.str "get_users" →
      handleFrame ok st sock (some j) = (st, [], LoopOutcome.cont))
    ∧ (j.isObj = false →
        (handleFrame ok st sock (some j)).2.2 = LoopOutcome.breakLoop) := by
  constructor
  · intro fields hj hct hty
    subst hj
    have hbeq : (fields.getD "type" == Json.str "get_users") = false := by
      simpa using hty
    simp [handleFrame, pyContains, hct, pyGetD, hbeq]
  · intro hobj
    cases j with
    | null => rfl
    | bool b => rfl
    | num n => rfl
    | str s => rw [handleFrame_str]
    | arr xs => rw [handleFrame_arr]
    | obj fields => exact absurd hobj (by simp [Json.isObj])

/-- C2, witness: the object `{"foo": 1}` is silently dropped and the loop
continues. -/
theorem C2_witness :
    handleFrame okAll stA 0
        (some (Json.obj (.cons "foo" (Json.num 1) .nil)))
      = (stA, [], LoopOutcome.cont) :=
  (C2_unrecognized_dispatch okAll stA 0 _).1 _ rfl (by decide) (by decide)

/-- C5: dispatch precedence of the receive loop. A parsed object with a
`target` field bound to the identifier of a registered, reachable channel is
forwarded verbatim (the whole original object) to that channel — regardless of
any `type` field, including `type == "get_users"`; an object without a
`target` field and with `type == "get_users"` gets the user list sent to the
sender's own channel only. The two guards are mutually exclusive, so exactly
one action fires per message. -/
theorem C5_dispatch_precedence (ok : Nat → Bool) (st : ManagerState)
    (senderSock : Nat) (fields : JsonObj) :
    (∀ (t : String) (tsock : Nat),
      fields.lookup "target" = some (Json.str t) →
      lookupA st.active t = some tsock → ok tsock = true →
      handleFrame ok st senderSock (some (Json.obj fields))
        = (st, [Event.send tsock (OutMsg.fwd (Json.obj fields))],
            LoopOutcome.cont))
    ∧ (fields.lookup "target" = none →
        fields.getD "type" = Json.str "get_users" →
        handleFrame ok st senderSock (some (Json.obj fields))
          = (st, [Event.send senderSock (OutMsg.users (keysOf st.active))],
              LoopOutcome.cont)) := by
  constructor
  · intro t tsock hl hreg hok
    have hct : fields.containsKey "target" = true := by
      simp [JsonObj.containsKey, hl]
    simp [handleFrame, pyContains, hct, pySubscript, hl,
      send_personal_message, hreg, hok]
  · intro hl hty
    have hct : fields.containsKey "target" = false := by
      simp [JsonObj.containsKey, hl]
    simp [handleFrame, pyContains, hct, pyGetD, hty,
      send_user_list_fst, send_user_list_snd]

/-- C5, witness: a message carrying both `"target": "b"` and
`"type": "get_users"` is forwarded verbatim to `"b"`'s channel — the
`get_users` branch does not fire. -/
theorem C5_witness :
    handleFrame okAll stAB 0
        (some (Json.obj (.cons "target" (Json.str "b")
          (.cons "type" (Json.str "get_users") .nil))))
      = (stAB, [Event.send 1 (OutMsg.fwd (Json.obj (.cons "target" (Json.str "b")
          (.cons "type" (Json.str "get_users") .nil))))], LoopOutcome.cont) :=
  (C5_dispatch_precedence okAll stAB 0 _).1 "b" 1 (by decide) (by decide) (by decide)

/-- C6: `connect` emits, in order, the transport accept, a user-list send to
the new channel only, then the broadcast pass over all registered channels;
the new identifier is registered before either send, so it appears in the
personal snapshot's roster and in the broadcast roster, and the new channel
itself is among the broadcast's recipients (receiving the roster a second
time). -/
theorem C6_connect_sequence (ok : Nat → Bool) (st : ManagerState)
    (cid : String) (sock : Nat) :
    ((connect ok st cid sock).2
      = Event.accept sock
        :: Event.send sock (OutMsg.users (keysOf (insertA st.active cid sock)))
        :: (insertA st.active cid sock).map
            (fun p => Event.send p.2
              (OutMsg.users (keysOf (insertA st.active cid sock)))))
    ∧ cid ∈ keysOf (insertA st.active cid sock)
    ∧ Event.send sock (OutMsg.users (keysOf (insertA st.active cid sock)))
        ∈ (insertA st.active cid sock).map
            (fun p => Event.send p.2
              (OutMsg.users (keysOf (insertA st.active cid sock)))) := by
  refine ⟨connect_events ok st cid sock, ?_, ?_⟩
  · exact List.mem_map_of_mem Prod.fst (self_mem_insertA cid sock st.active)
  · exact List.mem_map_of_mem _ (self_mem_insertA cid sock st.active)

/-- C7: registering an identifier that is already present always succeeds and
silently replaces the channel — the subsequent lookup yields the new channel,
the registry's key set is unchanged — and the whole `connect` emits no close
event, so the superseded channel is never closed by the operation. -/
theorem C7_register_overwrites (ok : Nat → Bool) (st : ManagerState)
    (cid : String) (oldSock newSock : Nat)
    (h : lookupA st.active cid = some oldSock) :
    lookupA (insertA st.active cid newSock) cid = some newSock
    ∧ keysOf (insertA st.active cid newSock) = keysOf st.active
    ∧ ∀ s, Event.close s ∉ (connect ok st cid newSock).2 := by
  refine ⟨lookupA_insertA_self cid newSock st.active,
    keysOf_insertA_of_mem newSock st.active (mem_keysOf_of_lookupA h), ?_⟩
  intro s hmem
  rw [connect_events] at hmem
  rcases List.mem_cons.mp hmem with h1 | hmem2
  · exact Event.noConfusion h1
  rcases List.mem_cons.mp hmem2 with h2 | hmem3
  · exact Event.noConfusion h2
  rcases List.mem_map.mp hmem3 with ⟨p, hp, hpe⟩
  exact Event.noConfusion hpe

/-- C7, witness: re-registering `"a"` (held by channel `0`) with channel `5`. -/
theorem C7_witness :
    lookupA (insertA stA.active "a" 5) "a" = some 5
    ∧ keysOf (insertA stA.active "a" 5) = keysOf stA.active
    ∧ ∀ s, Event.close s ∉ (connect okAll stA "a" 5).2 :=
  C7_register_overwrites okAll stA "a" 0 5 (by decide)

/-- C8: a frame that is not valid JSON is a perfect no-op for the receive
loop: prepending it to any frame sequence leaves the final registry and the
whole event trace unchanged — nothing is sent, the loop does not terminate,
and all subsequent frames are processed exactly as before. -/
theorem C8_malformed_frame_noop (ok : Nat → Bool) (st : ManagerState)
    (sock : Nat) (frames : List (Option Json)) :
    runLoop ok st sock (none :: frames) = runLoop ok st sock frames := by
  simp [runLoop, handleFrame]

theorem checkUuid_length :
    ∀ (u : List Char) (n : Nat), checkUuid u n = true → u.length + n = 36
  | [], n, h => by simpa [checkUuid] using h
  | c :: rest, n, h => by
    rw [checkUuid, Bool.and_eq_true] at h
    have hrec := checkUuid_length rest (n + 1) h.2
    simp only [List.length_cons]
    omega

theorem checkUuid_take_hex :
    ∀ (u : List Char) (n : Nat), checkUuid u n = true →
      ((u.take (8 - n)).all isHexDigitChar) = true
  | [], _, _ => by simp
  | c :: rest, n, h => by
    rw [checkUuid, Bool.and_eq_true] at h
    by_cases hn : 8 - n = 0
    · rw [hn]
      simp
    · have hcond : (n == 8 || n == 13 || n == 18 || n == 23) = false := by
        simp only [Bool.or_eq_false_iff, beq_eq_false_iff_ne]
        omega
      rw [hcond] at h
      have hc : isHexDigitChar c = true := by simpa using h.1
      have htl := checkUuid_take_hex rest (n + 1) h.2
      have hsucc : 8 - n = (8 - (n + 1)) + 1 := by omega
      rw [hsucc, List.take_succ_cons, List.all_cons, hc, Bool.true_and]
      exact htl

/-- C9: the identifier endpoint answers `{"id": s}` where `s` is the first
8 characters of the fresh UUID's canonical string — hence exactly 8 lowercase
hexadecimal characters — and it neither reads the registry (the response is
the same under any registry) nor mutates it. -/
theorem C9_generate_id (st st2 : ManagerState) (u : List Char)
    (h : isUuidCanonical u = true) :
    ((generate_id st u).1.id).length = 8
    ∧ (((generate_id st u).1.id).all isHexDigitChar) = true
    ∧ (generate_id st u).2 = st
    ∧ (generate_id st u).1 = (generate_id st2 u).1 := by
  have hlen : u.length = 36 := by
    have := checkUuid_length u 0 h
    omega
  refine ⟨?_, ?_, rfl, rfl⟩
  · show (u.take 8).length = 8
    rw [List.length_take, hlen]
    decide
  · have := checkUuid_take_hex u 0 h
    simpa using this

/-- C9, witness: the amended-free theorem on a concrete canonical UUID. -/
theorem C9_witness :
    ((generate_id stA uuidSample).1.id).length = 8
    ∧ (((generate_id stA uuidSample).1.id).all isHexDigitChar) = true
    ∧ (generate_id stA uuidSample).2 = stA
    ∧ (generate_id stA uuidSample).1 = (generate_id stAB uuidSample).1 :=
  C9_generate_id stA stAB uuidSample (by decide)

end WebRTC
